import Mathlib

/-!
Shallow embedding of the mcp25xxFD CAN-FD controller driver
(src/src/lib.rs, src/src/frame.rs, src/src/registers.rs, src/src/config.rs).

Machine integers are modelled as `Nat` with explicit truncation (`% 2 ^ w`)
where the Rust code truncates.  Rust panics (failed `assert!`, out-of-bounds
slice indexing, `Option::unwrap` on `None`) are modelled by an explicit
`panic` outcome; `Err(Error::ControllerError msg)` is modelled by `err msg`.
The SPI transport is modelled as error-free: every claim under study is about
the driver logic, and transport failures are propagated verbatim by the code.
Shift semantics follow release-mode Rust (`<<` masks the shift amount to the
operand width); the one place this matters is `Frame::from_rx_message`, where
debug-mode Rust would panic instead - either way the affected claim fails.
-/

namespace MCP

/-- Little-endian byte list of a natural number, fixed width `n` bytes. -/
def leBytes : Nat → Nat → List Nat
  | 0, _ => []
  | n + 1, v => v % 256 :: leBytes n (v / 256)

/-- Recombine a little-endian byte list into a natural number
(each byte is truncated to 8 bits, as `u8` guarantees in the source). -/
def fromLeBytes : List Nat → Nat
  | [] => 0
  | b :: rest => b % 256 + 256 * fromLeBytes rest

/-- Extract the `w`-bit field of `v` starting at bit `lo` (shift-and-mask,
the semantics of a `modular_bitfield` getter). -/
def getBits (v lo w : Nat) : Nat := v >>> lo % 2 ^ w

/-- Overwrite the `w`-bit field of `v` starting at bit `lo` with `x`
(the semantics of a `modular_bitfield` setter; `x` is truncated to `w` bits). -/
def setBits (v lo w x : Nat) : Nat :=
  v % 2 ^ lo + (x % 2 ^ w) * 2 ^ lo + v >>> (lo + w) * 2 ^ (lo + w)

/-- Set or clear a single bit, `set_<field>(bool)` on a one-bit field. -/
def setBitB (v i : Nat) (b : Bool) : Nat :=
  setBits v i 1 (if b then 1 else 0)

/-! ## registers.rs: DataLengthCode -/

/-- Data Length Code (`registers.rs`, `enum DataLengthCode`). -/
inductive DataLengthCode
  | DLC_0 | DLC_1 | DLC_2 | DLC_3 | DLC_4 | DLC_5 | DLC_6 | DLC_7
  | DLC_8 | DLC_12 | DLC_16 | DLC_20 | DLC_24 | DLC_32 | DLC_48 | DLC_64
deriving DecidableEq

namespace DataLengthCode

/-- Discriminant values of the Rust enum (`DLC_0 = 0`, ..., `DLC_64 = 15`). -/
def toNat : DataLengthCode → Nat
  | DLC_0 => 0 | DLC_1 => 1 | DLC_2 => 2 | DLC_3 => 3
  | DLC_4 => 4 | DLC_5 => 5 | DLC_6 => 6 | DLC_7 => 7
  | DLC_8 => 8 | DLC_12 => 9 | DLC_16 => 10 | DLC_20 => 11
  | DLC_24 => 12 | DLC_32 => 13 | DLC_48 => 14 | DLC_64 => 15

/-- Inverse of `toNat` on a 4-bit field value (the `modular_bitfield`
specifier decodes all 16 possible 4-bit patterns). -/
def fromBits (n : Nat) : DataLengthCode :=
  match n % 16 with
  | 0 => DLC_0 | 1 => DLC_1 | 2 => DLC_2 | 3 => DLC_3
  | 4 => DLC_4 | 5 => DLC_5 | 6 => DLC_6 | 7 => DLC_7
  | 8 => DLC_8 | 9 => DLC_12 | 10 => DLC_16 | 11 => DLC_20
  | 12 => DLC_24 | 13 => DLC_32 | 14 => DLC_48 | _ => DLC_64

/-- Modelled from the spec: `DataLengthCode::bytes` is called by `frame.rs`
but absent from `src/src/registers.rs`.  Byte counts follow the spec glossary
and the enum variant names: 0-8 linear, then 12/16/20/24/32/48/64. -/
def bytes : DataLengthCode → Nat
  | DLC_0 => 0 | DLC_1 => 1 | DLC_2 => 2 | DLC_3 => 3
  | DLC_4 => 4 | DLC_5 => 5 | DLC_6 => 6 | DLC_7 => 7
  | DLC_8 => 8 | DLC_12 => 12 | DLC_16 => 16 | DLC_20 => 20
  | DLC_24 => 24 | DLC_32 => 32 | DLC_48 => 48 | DLC_64 => 64

/-- All sixteen codes in ascending byte-count order. -/
def all : List DataLengthCode :=
  [DLC_0, DLC_1, DLC_2, DLC_3, DLC_4, DLC_5, DLC_6, DLC_7,
   DLC_8, DLC_12, DLC_16, DLC_20, DLC_24, DLC_32, DLC_48, DLC_64]

/-- Modelled from the spec: `DataLengthCode::best_fit` is called by
`Frame::new` but absent from `src/src/registers.rs`.  Per the spec, frame
construction "yields the smallest DLC code whose byte count is >= the data
length, or fails if data exceeds 64 bytes". -/
def best_fit (len : Nat) : Option DataLengthCode :=
  all.find? fun d => len ≤ d.bytes

end DataLengthCode

/-! ## embedded_can identifiers (external crate, modelled per its contract) -/

/-- The `embedded_can::Id` type: an 11-bit standard or 29-bit extended
CAN identifier, tagged by kind. -/
inductive CanId
  | standard (raw : Nat)
  | extended (raw : Nat)
deriving DecidableEq

/-- The `embedded_can::StandardId::new` smart constructor: `none` when the
value exceeds the 11-bit maximum `0x7FF`. -/
def StandardId.new (raw : Nat) : Option CanId :=
  if raw ≤ 0x7FF then some (.standard raw) else none

/-- The `embedded_can::ExtendedId::new` smart constructor: `none` when the
value exceeds the 29-bit maximum `0x1FFFFFFF`. -/
def ExtendedId.new (raw : Nat) : Option CanId :=
  if raw ≤ 0x1FFFFFFF then some (.extended raw) else none

/-! ## Outcome of a driver call -/

/-- Result of running a fallible / panicking piece of Rust code:
`ok` for a normal return, `err msg` for `Err(Error::ControllerError(msg))`,
`panic msg` for a Rust panic (failed assert, slice OOB, unwrap of None). -/
inductive Outcome (α : Type)
  | ok (a : α)
  | err (msg : String)
  | panic (msg : String)
deriving DecidableEq

/-! ## frame.rs: Frame and the message-object headers -/

/-- The in-memory frame (`frame.rs`, `struct Frame`).  The payload buffer
`data` is the fixed 64-byte array; only the first `dlc.bytes` are meaningful. -/
structure Frame where
  id : CanId
  dlc : DataLengthCode
  data : List Nat
  sequence_number : Nat
deriving DecidableEq

/-- The `Frame::data()` accessor: the first `bytes(DLC)` bytes of the buffer. -/
def Frame.payload (f : Frame) : List Nat := f.data.take f.dlc.bytes

/-- `Frame::new(id, data_slice)`.  The source first executes
`data[0..data_slice.len()].copy_from_slice(data_slice)` on the 64-byte buffer,
which panics when the slice is longer than 64 bytes, and only then evaluates
`DataLengthCode::best_fit(data_slice.len())?`. -/
def Frame.new (id : CanId) (data_slice : List Nat) : Outcome (Option Frame) :=
  if data_slice.length ≤ 64 then
    match DataLengthCode.best_fit data_slice.length with
    | some dlc =>
        .ok (some { id := id, dlc := dlc,
                    data := data_slice ++ List.replicate (64 - data_slice.length) 0,
                    sequence_number := 0 })
    | none => .ok none
  else .panic "range end index out of range for slice of length 64"

/-- The 64-bit transmit message-object header (`registers.rs`,
`TransmitMessageObjectHeader`): dlc bits 0-3, ide 4, rtr 5, brs 6, fdf 7,
esi 8, seq 9-31, sid 32-42, eid 43-60, sid11 61. -/
structure TransmitMessageObjectHeader where
  dlc : DataLengthCode
  ide : Bool
  rtr : Bool
  brs : Bool
  fdf : Bool
  esi : Bool
  seq : Nat
  sid : Nat
  eid : Nat
  sid11 : Bool
deriving DecidableEq

/-- Pack the transmit header into its 64-bit wire value (the
`modular_bitfield` layout; fields are truncated to their declared widths). -/
def TransmitMessageObjectHeader.toNat (h : TransmitMessageObjectHeader) : Nat :=
  h.dlc.toNat
  + (if h.ide then 1 else 0) * 2 ^ 4
  + (if h.rtr then 1 else 0) * 2 ^ 5
  + (if h.brs then 1 else 0) * 2 ^ 6
  + (if h.fdf then 1 else 0) * 2 ^ 7
  + (if h.esi then 1 else 0) * 2 ^ 8
  + h.seq % 2 ^ 23 * 2 ^ 9
  + h.sid % 2 ^ 11 * 2 ^ 32
  + h.eid % 2 ^ 18 * 2 ^ 43
  + (if h.sid11 then 1 else 0) * 2 ^ 61

/-- `TransmitMessageObjectHeader::into_bytes()`: the 8 little-endian bytes
of the packed 64-bit value. -/
def TransmitMessageObjectHeader.into_bytes (h : TransmitMessageObjectHeader) : List Nat :=
  leBytes 8 h.toNat

/-- The 64-bit receive message-object header (`registers.rs`,
`ReceiveMessageObjectHeader`): dlc bits 0-3, ide 4, rtr 5, brs 6, fdf 7,
esi 8, filthit 11-15, sid 32-42, eid 43-60, sid11 61. -/
structure ReceiveMessageObjectHeader where
  dlc : DataLengthCode
  ide : Bool
  rtr : Bool
  brs : Bool
  fdf : Bool
  esi : Bool
  filthit : Nat
  sid : Nat
  eid : Nat
  sid11 : Bool
deriving DecidableEq

/-- `ReceiveMessageObjectHeader::from_bytes`: parse the 8 little-endian
bytes back into the bit-field aggregate. -/
def ReceiveMessageObjectHeader.from_bytes (bytes : List Nat) : ReceiveMessageObjectHeader :=
  let v := fromLeBytes bytes
  { dlc := DataLengthCode.fromBits (getBits v 0 4)
    ide := Nat.testBit v 4
    rtr := Nat.testBit v 5
    brs := Nat.testBit v 6
    fdf := Nat.testBit v 7
    esi := Nat.testBit v 8
    filthit := getBits v 11 5
    sid := getBits v 32 11
    eid := getBits v 43 18
    sid11 := Nat.testBit v 61 }

/-- `Frame::as_components` (frame.rs): split the identifier, derive the
FD/BRS flags from the byte count, and build the transmit header.  The source
sets `ide` with `.with_ide(eid > 0)`. -/
def Frame.as_components (f : Frame) : TransmitMessageObjectHeader × List Nat :=
  let se : Nat × Nat :=
    match f.id with
    | .standard raw => (raw, 0)
    | .extended raw => (raw &&& 0x7FF, raw >>> 11)
  let is_fd_frame : Bool := decide (8 < f.dlc.bytes)
  ({ dlc := f.dlc
     ide := decide (0 < se.2)
     rtr := false
     brs := is_fd_frame
     fdf := is_fd_frame
     esi := false
     seq := f.sequence_number
     sid := se.1
     eid := se.2
     sid11 := false }, f.payload)

/-- `Frame::from_rx_message` (frame.rs).  The source computes the extended
identifier as `header.eid() << 11 + header.sid()`, which Rust parses as
`eid << (11 + sid)` because `+` binds tighter than `<<`; in release builds a
`u32` shift masks its amount to 5 bits.  `StandardId::new(..).unwrap()` and
`ExtendedId::new(..).unwrap()` panic when the smart constructor returns
`None`. -/
def Frame.from_rx_message (header : ReceiveMessageObjectHeader) (data : List Nat) :
    Outcome Frame :=
  let idOpt : Option CanId :=
    if header.eid = 0 then
      StandardId.new header.sid
    else
      ExtendedId.new (header.eid <<< ((11 + header.sid) % 32) % 2 ^ 32)
  match idOpt with
  | some id => .ok { id := id, dlc := header.dlc, data := data, sequence_number := 0 }
  | none => .panic "unwrap of None"

/-! ## lib.rs: chip state, SPI transactions and the driver monad

The chip holds all mutable state (the driver caches nothing): a map from
register address to 32-bit value and a map from RAM offset to byte.  Each
driver operation returns its outcome, the chip state after the call, and the
trace of chip-select-framed SPI transactions it issued. -/

/-- Chip-side state: 32-bit registers by address, RAM bytes by offset
into the 2048-byte RAM window. -/
structure Chip where
  regs : Nat → Nat
  ram : Nat → Nat

/-- One chip-select-framed SPI transaction, as issued by the driver
primitives in lib.rs.  `ramWrite`/`ramRead` addresses are the offsets the
driver adds to `RAM_START` when building the wire header. -/
inductive Txn
  | rawWrite (bytes : List Nat)
  | regRead (addr : Nat)
  | regWrite (addr : Nat) (value : Nat)
  | regWriteByte (addr : Nat) (value : Nat)
  | ramRead (addr : Nat) (len : Nat)
  | ramWrite (addr : Nat) (data : List Nat)
deriving DecidableEq

/-- Result of one driver call: outcome, chip state after, SPI trace. -/
structure StepResult (α : Type) where
  out : Outcome α
  chip : Chip
  trace : List Txn

/-- A driver computation over the chip. -/
def M (α : Type) := Chip → StepResult α

/-- Return without touching the bus. -/
def M.pure (a : α) : M α := fun c => ⟨.ok a, c, []⟩

/-- Sequencing: `?` propagates `Err`, a panic aborts; side effects already
performed (trace, chip state) stand. -/
def M.bind (m : M α) (f : α → M β) : M β := fun c =>
  let r := m c
  match r.out with
  | .ok a => let r2 := f a r.chip; ⟨r2.out, r2.chip, r.trace ++ r2.trace⟩
  | .err e => ⟨.err e, r.chip, r.trace⟩
  | .panic p => ⟨.panic p, r.chip, r.trace⟩

/-- Fail with `Err(Error::ControllerError(msg))`. -/
def M.fail (msg : String) : M α := fun c => ⟨.err msg, c, []⟩

/-- Rust panic inside a driver call. -/
def M.panic (msg : String) : M α := fun c => ⟨.panic msg, c, []⟩

/-! ### Wire command encoding -/

/-- SPI instruction opcodes (`enum Instruction`, lib.rs). -/
inductive Instruction
  | Reset | Read | Write | ReadCRC | WriteCRC | WriteSafe
deriving DecidableEq

/-- Discriminants of the Rust enum. -/
def Instruction.toNat : Instruction → Nat
  | .Reset => 0b0000
  | .Read => 0b0011
  | .Write => 0b0010
  | .ReadCRC => 0b1011
  | .WriteCRC => 0b1010
  | .WriteSafe => 0b1100

/-- `Instruction::header` (lib.rs): a two-byte command header, instruction
nibble shifted left 4 OR the top 4 address bits, then the low 8 address
bits. -/
def Instruction.header (i : Instruction) (address : Nat) : List Nat :=
  [i.toNat * 16 + address >>> 8 % 16, address % 256]

/-! ### Register addresses (registers.rs `RegisterAddress` impls) -/

def CANControl.address : Nat := 0x000
def NominalBitTimeConfig.address : Nat := 0x004
def DataBitTimeConfig.address : Nat := 0x008
def TransmitterDelayCompensation.address : Nat := 0x00C
def Interrupts.address : Nat := 0x01C
def ReceiveInterruptStatus.address : Nat := 0x020
def ECCControl.address : Nat := 0xE0C
/-- `FIFOControl<M>`: `0x05C + 12 * (M - 1)` (M is 1-indexed). -/
def FIFOControl.address (m : Nat) : Nat := 0x05C + 12 * (m - 1)
/-- `FIFOStatus<M>`: `0x060 + 12 * (M - 1)` (M is 1-indexed). -/
def FIFOStatus.address (m : Nat) : Nat := 0x060 + 12 * (m - 1)
/-- `FIFOUserAddress<M>`: `0x064 + 12 * (M - 1)` (M is 1-indexed). -/
def FIFOUserAddress.address (m : Nat) : Nat := 0x064 + 12 * (m - 1)

def RAM_START : Nat := 0x400
def RAM_SIZE : Nat := 2048

/-! ### Register access protocol primitives -/

/-- `MCP25xxFD::reset`: one SPI write of `Instruction::Reset.header(0x00)`.
The chip-side effect of the reset (registers return to defaults) happens on
the far side of the transport and is outside the driver model. -/
def reset : M Unit := fun c =>
  ⟨.ok (), c, [.rawWrite (Instruction.header .Reset 0x00)]⟩

/-- `MCP25xxFD::read_register::<R>`: one transfer, returns the register
value at `R::ADDRESS`. -/
def read_register (addr : Nat) : M Nat := fun c =>
  ⟨.ok (c.regs addr), c, [.regRead addr]⟩

/-- `MCP25xxFD::write_register::<R>`: one transaction writing the 4
serialized bytes; the chip stores the 32-bit value. -/
def write_register (addr value : Nat) : M Unit := fun c =>
  ⟨.ok (), { c with regs := fun a => if a = addr then value % 2 ^ 32 else c.regs a },
   [.regWrite addr (value % 2 ^ 32)]⟩

/-- `MCP25xxFD::write_bytes`: burst RAM write at `RAM_START + address`.
`assert_eq!(data.len() % 4, 0)` panics before any bus traffic. -/
def write_bytes (address : Nat) (data : List Nat) : M Unit := fun c =>
  if data.length % 4 = 0 then
    ⟨.ok (),
     { c with ram := fun a =>
         if address ≤ a ∧ a < address + data.length then data.getD (a - address) 0
         else c.ram a },
     [.ramWrite address data]⟩
  else ⟨.panic "Must write in multiples of 4 data bytes", c, []⟩

/-- `MCP25xxFD::read_bytes::<B>`: burst RAM read at `RAM_START + address`.
`assert_eq!(B % 4, 0)` panics before any bus traffic. -/
def read_bytes (address len : Nat) : M (List Nat) := fun c =>
  if len % 4 = 0 then
    ⟨.ok ((List.range len).map fun i => c.ram (address + i) % 256), c,
     [.ramRead address len]⟩
  else ⟨.panic "Must read in multiples of 4 data bytes", c, []⟩

/-- The write loop of `initialize_ram`: one 64-byte burst per address. -/
def write_seq (l : List Nat) (data : Nat) : M Unit :=
  match l with
  | [] => M.pure ()
  | a :: rest => M.bind (write_bytes a (List.replicate 64 data)) fun _ => write_seq rest data

/-- `MCP25xxFD::initialize_ram(data)`: write the byte `data` over the whole
2048-byte RAM region, 64 bytes at a time
(`for addr in (0..RAM_SIZE).step_by(64)`). -/
def initialize_ram (data : Nat) : M Unit :=
  write_seq ((List.range 32).map fun k => k * 64) data

/-! ## config.rs: bit-timing resolver -/

/-- Oscillator clock (`enum Clock`). -/
inductive Clock
  | Clock20MHz | Clock40MHz
deriving DecidableEq, Fintype

/-- Arbitration-phase bit rate (`enum ArbitrationBitRate`). -/
inductive ArbitrationBitRate
  | Rate125K | Rate250K | Rate500K | Rate1000K
deriving DecidableEq, Fintype

/-- Data-phase bit rate (`enum DataBitRate`). -/
inductive DataBitRate
  | Rate500K | Rate833K | Rate1M | Rate1M5 | Rate2M
  | Rate3M | Rate4M | Rate5M | Rate6M7 | Rate8M | Rate10M
deriving DecidableEq, Fintype

/-- A requested rate pair (`struct BitRate`). -/
structure BitRate where
  arbitration : ArbitrationBitRate
  data : DataBitRate
deriving DecidableEq, Fintype

/-- Resolved register values (`struct BitRateConfig`).  `Default` zeroes all
fields; `get_config` then overwrites `tdc_mode` with `0b10` (auto) before
matching. -/
structure BitRateConfig where
  arbitration_brp : Nat
  arbitration_tseg1 : Nat
  arbitration_tseg2 : Nat
  arbitration_sjw : Nat
  data_brp : Nat
  data_tseg1 : Nat
  data_tseg2 : Nat
  data_sjw : Nat
  tdc_offset : Nat
  tdc_value : Nat
  tdc_mode : Nat
deriving DecidableEq

/-- Arbitration-phase quadruple (brp, tseg1, tseg2, sjw) for the 40 MHz
clock: the first inner `match` of `get_config`. -/
def arbParams40 : ArbitrationBitRate → Nat × Nat × Nat × Nat
  | .Rate125K => (0, 254, 63, 63)
  | .Rate250K => (0, 126, 31, 31)
  | .Rate500K => (0, 62, 15, 15)
  | .Rate1000K => (0, 30, 7, 7)

/-- Arbitration-phase quadruple for the 20 MHz clock. -/
def arbParams20 : ArbitrationBitRate → Nat × Nat × Nat × Nat
  | .Rate125K => (0, 126, 31, 31)
  | .Rate250K => (0, 62, 15, 15)
  | .Rate500K => (0, 30, 7, 7)
  | .Rate1000K => (0, 14, 3, 3)

/-- Data-phase septuple (brp, tseg1, tseg2, sjw, tdco, tdcv, tdcmod) for
the 40 MHz clock: the second inner `match` of `get_config`, arm for arm;
`none` is the `_ => return None` arm.  `tdcmod` stays at the auto default
`0b10` except in the two arms that set `config.tdc_mode = 0`. -/
def dataParams40 : ArbitrationBitRate → DataBitRate →
    Option (Nat × Nat × Nat × Nat × Nat × Nat × Nat)
  | .Rate500K, .Rate1M => some (0, 30, 7, 7, 31, 0, 0b10)
  | .Rate500K, .Rate2M => some (0, 14, 3, 3, 15, 0, 0b10)
  | .Rate500K, .Rate3M => some (0, 8, 2, 2, 9, 0, 0b10)
  | .Rate500K, .Rate4M => some (0, 6, 1, 1, 7, 0, 0b10)
  | .Rate1000K, .Rate4M => some (0, 6, 1, 1, 7, 0, 0b10)
  | .Rate500K, .Rate5M => some (0, 4, 1, 1, 5, 0, 0b10)
  | .Rate500K, .Rate6M7 => some (0, 3, 0, 0, 4, 0, 0b10)
  | .Rate500K, .Rate8M => some (0, 2, 0, 0, 3, 1, 0b10)
  | .Rate1000K, .Rate8M => some (0, 2, 0, 0, 3, 1, 0b10)
  | .Rate500K, .Rate10M => some (0, 1, 0, 0, 2, 0, 0b10)
  | .Rate250K, .Rate500K => some (1, 30, 7, 7, 31, 0, 0)
  | .Rate125K, .Rate500K => some (1, 30, 7, 7, 31, 0, 0)
  | .Rate250K, .Rate833K => some (1, 17, 4, 4, 18, 0, 0)
  | .Rate250K, .Rate1M => some (0, 30, 7, 7, 31, 0, 0b10)
  | .Rate250K, .Rate1M5 => some (0, 18, 5, 5, 19, 0, 0b10)
  | .Rate250K, .Rate2M => some (0, 14, 3, 3, 15, 0, 0b10)
  | .Rate250K, .Rate3M => some (0, 8, 2, 2, 9, 0, 0b10)
  | .Rate250K, .Rate4M => some (0, 6, 1, 1, 7, 0, 0b10)
  | _, _ => none

/-- Data-phase septuple for the 20 MHz clock. -/
def dataParams20 : ArbitrationBitRate → DataBitRate →
    Option (Nat × Nat × Nat × Nat × Nat × Nat × Nat)
  | .Rate500K, .Rate1M => some (0, 14, 3, 3, 15, 0, 0b10)
  | .Rate500K, .Rate2M => some (0, 6, 1, 1, 7, 0, 0b10)
  | .Rate500K, .Rate4M => some (0, 2, 0, 0, 3, 0, 0b10)
  | .Rate1000K, .Rate4M => some (0, 2, 0, 0, 3, 0, 0b10)
  | .Rate500K, .Rate5M => some (0, 1, 0, 0, 2, 0, 0b10)
  | .Rate250K, .Rate500K => some (0, 30, 7, 7, 31, 0, 0)
  | .Rate125K, .Rate500K => some (0, 30, 7, 7, 31, 0, 0)
  | .Rate250K, .Rate833K => some (0, 17, 4, 4, 18, 0, 0)
  | .Rate250K, .Rate1M => some (0, 14, 3, 3, 15, 0, 0b10)
  | .Rate250K, .Rate1M5 => some (0, 8, 2, 2, 9, 0, 0b10)
  | .Rate250K, .Rate2M => some (0, 6, 1, 1, 7, 0, 0b10)
  | .Rate250K, .Rate4M => some (0, 2, 0, 0, 3, 0, 0b10)
  | _, _ => none

/-- `BitRate::get_config` (config.rs): pure table lookup from
(clock, arbitration rate, data rate) to a fully populated `BitRateConfig`,
or `None` for a combination absent from the table. -/
def BitRate.get_config (br : BitRate) (clock : Clock) : Option BitRateConfig :=
  let pick :
      (Nat × Nat × Nat × Nat) → (Nat × Nat × Nat × Nat × Nat × Nat × Nat) →
        BitRateConfig :=
    fun arb data =>
      { arbitration_brp := arb.1, arbitration_tseg1 := arb.2.1
        arbitration_tseg2 := arb.2.2.1, arbitration_sjw := arb.2.2.2
        data_brp := data.1, data_tseg1 := data.2.1
        data_tseg2 := data.2.2.1, data_sjw := data.2.2.2.1
        tdc_offset := data.2.2.2.2.1, tdc_value := data.2.2.2.2.2.1
        tdc_mode := data.2.2.2.2.2.2 }
  match clock with
  | .Clock40MHz =>
      match dataParams40 br.arbitration br.data with
      | some d => some (pick (arbParams40 br.arbitration) d)
      | none => none
  | .Clock20MHz =>
      match dataParams20 br.arbitration br.data with
      | some d => some (pick (arbParams20 br.arbitration) d)
      | none => none

/-- Driver configuration (`struct Config`). -/
structure Config where
  ecc_enabled : Bool
  txq_enabled : Bool
  tx_event_fifo_enabled : Bool
  iso_crc_enabled : Bool
  restrict_retx_attempts : Bool
  bit_rate : BitRate
  clock : Clock

/-- `Config::default()`. -/
def Config.default : Config :=
  { ecc_enabled := true, txq_enabled := false, tx_event_fifo_enabled := false
    iso_crc_enabled := true, restrict_retx_attempts := false
    bit_rate := { arbitration := .Rate500K, data := .Rate2M }
    clock := .Clock40MHz }

/-! ## lib.rs: controller core operations -/

/-- `MCP25xxFD::reset_and_apply_config` (lib.rs).  Bit positions:
ECCControl.eccen = bit 0; CANControl.isocrcen = 5, rtxat = 16, stef = 19,
txqen = 20; NominalBitTimeConfig sjw 0-6, tseg2 8-14, tseg1 16-23,
brp 24-31; DataBitTimeConfig sjw 0-3, tseg2 8-11, tseg1 16-20, brp 24-31;
TransmitterDelayCompensation tdcv 0-5, tdco 8-14, tdcmod 16-17;
Interrupts txie = 16, rxie = 17, cerrie = 29.  The `.expect(..)` on the
resolver result is a panic when the table has no entry. -/
def reset_and_apply_config (config : Config) : M Unit :=
  M.bind reset fun _ =>
  M.bind (read_register ECCControl.address) fun ecc =>
  M.bind (write_register ECCControl.address (setBitB ecc 0 config.ecc_enabled)) fun _ =>
  M.bind (initialize_ram 0xFF) fun _ =>
  M.bind (read_register CANControl.address) fun cc0 =>
  let cc1 := setBitB cc0 5 config.iso_crc_enabled
  let cc2 := setBitB cc1 19 config.tx_event_fifo_enabled
  let cc3 := setBitB cc2 20 config.txq_enabled
  let cc4 := setBitB cc3 16 config.restrict_retx_attempts
  M.bind (write_register CANControl.address cc4) fun _ =>
  match BitRate.get_config config.bit_rate config.clock with
  | none => M.panic "Invalid bit rate pair for system clock"
  | some bc =>
    let nominal := bc.arbitration_sjw % 2 ^ 7
      + bc.arbitration_tseg2 % 2 ^ 7 * 2 ^ 8
      + bc.arbitration_tseg1 % 2 ^ 8 * 2 ^ 16
      + bc.arbitration_brp % 2 ^ 8 * 2 ^ 24
    M.bind (write_register NominalBitTimeConfig.address nominal) fun _ =>
    let dataBT := bc.data_sjw % 2 ^ 4
      + bc.data_tseg2 % 2 ^ 4 * 2 ^ 8
      + bc.data_tseg1 % 2 ^ 5 * 2 ^ 16
      + bc.data_brp % 2 ^ 8 * 2 ^ 24
    M.bind (write_register DataBitTimeConfig.address dataBT) fun _ =>
    M.bind (read_register TransmitterDelayCompensation.address) fun tdc0 =>
    let tdc1 := setBits tdc0 16 2 bc.tdc_mode
    let tdc2 := setBits tdc1 8 7 bc.tdc_offset
    let tdc3 := setBits tdc2 0 6 bc.tdc_value
    M.bind (write_register TransmitterDelayCompensation.address tdc3) fun _ =>
    M.bind (read_register Interrupts.address) fun ints0 =>
    let ints1 := setBitB ints0 16 false
    let ints2 := setBitB ints1 17 true
    let ints3 := setBitB ints2 29 true
    write_register Interrupts.address ints3

/-- `MCP25xxFD::transmit::<M>` (lib.rs).  FIFOStatus.tfnrfnif = bit 0;
`fifoua() as u16` truncates the 32-bit user address; the header occupies
`size_of::<TransmitMessageObjectHeader>() = 8` bytes; FIFOControl.uinc =
bit 8 and the send-request bit = bit 9. -/
def transmit (m : Nat) (frame : Frame) : M Unit :=
  M.bind (read_register (FIFOStatus.address m)) fun tx_status =>
  if Nat.testBit tx_status 0 = false then
    M.fail "No room in TX FIFO!"
  else
    let hd := frame.as_components
    M.bind (read_register (FIFOUserAddress.address m)) fun ua =>
    let tx_addr := ua % 2 ^ 16
    M.bind (write_bytes tx_addr hd.1.into_bytes) fun _ =>
    M.bind (write_bytes (tx_addr + 8) hd.2) fun _ =>
    M.bind (read_register (FIFOControl.address m)) fun tx_control =>
    write_register (FIFOControl.address m) (setBitB (setBitB tx_control 8 true) 9 true)

/-- `MCP25xxFD::get_rx_frame::<M>` (lib.rs): re-read the FIFO user address,
read the 8-byte header then the 64-byte payload from RAM, decode, advance
the FIFO by writing `uinc` (bit 8), and return `(M, frame)`. -/
def get_rx_frame (m : Nat) : M (Option (Nat × Frame)) :=
  M.bind (read_register (FIFOUserAddress.address m)) fun ua =>
  let rx_addr := ua % 2 ^ 16
  M.bind (read_bytes rx_addr 8) fun hbytes =>
  M.bind (read_bytes (rx_addr + 8) 64) fun dbytes =>
  match Frame.from_rx_message (ReceiveMessageObjectHeader.from_bytes hbytes) dbytes with
  | .ok frame =>
      M.bind (read_register (FIFOControl.address m)) fun rx_control =>
      M.bind (write_register (FIFOControl.address m) (setBitB rx_control 8 true)) fun _ =>
      M.pure (some (m, frame))
  | .err e => M.fail e
  | .panic p => M.panic p

/-- `MCP25xxFD::receive_first_fifo` (lib.rs): the 31-arm `match`, collapsed
index-wise - arm `i` (1 <= i <= 31) fires iff `rx_interrupts.fifoI()` and
calls `get_rx_frame::<i>`, the `_` arm returns `Ok(None)`.
Modelled from the spec for the accessors: `fifo1()..fifo31()` are absent
from `src/src/registers.rs` (which exposes the field only as the 31-bit
`rfif` bitmap at bits 1..31), so `fifoI()` is taken to read bit `i` of the
register value, per the spec phrase "the 31-bit per-FIFO interrupt
bitmap". -/
def receive_first_fifo (fifo : Nat) (rx_interrupts : Nat) : M (Option (Nat × Frame)) :=
  if 1 ≤ fifo ∧ fifo ≤ 31 ∧ Nat.testBit rx_interrupts fifo then
    get_rx_frame fifo
  else
    M.pure none

/-- The `for i in 1..=31` loop body of `receive`: `frame` is overwritten by
`receive_first_fifo(i, ..)` whenever it is still `None` and the optional
FIFO restriction allows index `i`. -/
def receive_loop (restriction : Option Nat) (rx_interrupts : Nat) :
    List Nat → Option (Nat × Frame) → M (Option (Nat × Frame))
  | [], acc => M.pure acc
  | i :: rest, acc =>
      if acc.isNone ∧ restriction.getD i = i then
        M.bind (receive_first_fifo i rx_interrupts) fun r =>
          receive_loop restriction rx_interrupts rest r
      else
        receive_loop restriction rx_interrupts rest acc

/-- `MCP25xxFD::receive` (lib.rs).  Interrupts.rxif = bit 1,
Interrupts.cerrif = bit 13: a set bus-error flag is cleared by writing the
register back with `cerrif` false, then surfaced as a controller error;
otherwise a set receive flag triggers the ascending FIFO scan. -/
def receive (fifo_restriction : Option Nat) : M (Option (Nat × Frame)) :=
  M.bind (read_register Interrupts.address) fun interrupts =>
  if Nat.testBit interrupts 13 then
    M.bind (write_register Interrupts.address (setBitB interrupts 13 false)) fun _ =>
    M.fail "CAN Bus error!"
  else if Nat.testBit interrupts 1 then
    M.bind (read_register ReceiveInterruptStatus.address) fun rx_interrupts =>
    receive_loop fifo_restriction rx_interrupts (List.range' 1 31) none
  else
    M.pure none

/-! ## Auxiliary definitions for the verification -/

/-- The RAM-write transactions of a trace, in order. -/
def ramWrites : List Txn → List (Nat × List Nat)
  | [] => []
  | .ramWrite a d :: rest => (a, d) :: ramWrites rest
  | .rawWrite _ :: rest => ramWrites rest
  | .regRead _ :: rest => ramWrites rest
  | .regWrite _ _ :: rest => ramWrites rest
  | .regWriteByte _ _ :: rest => ramWrites rest
  | .ramRead _ _ :: rest => ramWrites rest

/-- The (clock, arbitration rate, data rate) combinations the resolver's
table supports, enumerated from the spec side ("the table only contains
combinations the chip silicon actually supports"); compared against
`BitRate.get_config` below. -/
def supportedPairs40 : List (ArbitrationBitRate × DataBitRate) :=
  [(.Rate500K, .Rate1M), (.Rate500K, .Rate2M), (.Rate500K, .Rate3M),
   (.Rate500K, .Rate4M), (.Rate1000K, .Rate4M), (.Rate500K, .Rate5M),
   (.Rate500K, .Rate6M7), (.Rate500K, .Rate8M), (.Rate1000K, .Rate8M),
   (.Rate500K, .Rate10M), (.Rate250K, .Rate500K), (.Rate125K, .Rate500K),
   (.Rate250K, .Rate833K), (.Rate250K, .Rate1M), (.Rate250K, .Rate1M5),
   (.Rate250K, .Rate2M), (.Rate250K, .Rate3M), (.Rate250K, .Rate4M)]

/-- Supported pairs for the 20 MHz clock. -/
def supportedPairs20 : List (ArbitrationBitRate × DataBitRate) :=
  [(.Rate500K, .Rate1M), (.Rate500K, .Rate2M), (.Rate500K, .Rate4M),
   (.Rate1000K, .Rate4M), (.Rate500K, .Rate5M), (.Rate250K, .Rate500K),
   (.Rate125K, .Rate500K), (.Rate250K, .Rate833K), (.Rate250K, .Rate1M),
   (.Rate250K, .Rate1M5), (.Rate250K, .Rate2M), (.Rate250K, .Rate4M)]

/-- Membership of a triple in the resolver's supported set. -/
def supportedTriple (c : Clock) (a : ArbitrationBitRate) (d : DataBitRate) : Bool :=
  match c with
  | .Clock40MHz => decide ((a, d) ∈ supportedPairs40)
  | .Clock20MHz => decide ((a, d) ∈ supportedPairs20)

/-- A chip whose registers and RAM read all-zero. -/
def chipZero : Chip := ⟨fun _ => 0, fun _ => 0⟩

/-- The frame a zeroed receive message object decodes to. -/
def zeroFrame : Frame :=
  { id := .standard 0, dlc := .DLC_0, data := List.replicate 64 0, sequence_number := 0 }

/-- Concrete frame for C1: the spec's own extended identifier example
`0x1ABCDE`, with an 8-byte payload. -/
def frameC1 : Frame :=
  { id := .extended 0x1ABCDE, dlc := .DLC_8, data := List.replicate 64 0, sequence_number := 0 }

/-- Concrete frame for C3: an extended identifier whose high 18 bits are
zero (`0x123 <= 0x7FF`). -/
def frameC3x : Frame :=
  { id := .extended 0x123, dlc := .DLC_0, data := List.replicate 64 0, sequence_number := 0 }

/-- Concrete frame for the C3 witness: an extended identifier with nonzero
high bits. -/
def frameC3w : Frame :=
  { id := .extended 0x1ABCDE, dlc := .DLC_4, data := List.replicate 64 1, sequence_number := 0 }

/-- Concrete frame for C6: any well-formed frame. -/
def frameC6 : Frame :=
  { id := .standard 2, dlc := .DLC_8, data := List.replicate 64 7, sequence_number := 0 }

/-- Concrete frame for C10: a 3-byte payload, `DLC_3`
(what `Frame::new` yields for a 3-byte slice). -/
def frameC10 : Frame :=
  { id := .standard 1, dlc := .DLC_3, data := List.replicate 64 0, sequence_number := 0 }

/-- A chip whose FIFO 1 reports "not full" (FIFOStatus bit 0 set). -/
def chipTxReady : Chip :=
  ⟨fun a => if a = FIFOStatus.address 1 then 1 else 0, fun _ => 0⟩

/-- A chip with the aggregate receive flag set (Interrupts bit 1) and only
FIFO 5 pending in the receive-interrupt bitmap (bit 5 = 32). -/
def chipC7 : Chip :=
  ⟨fun a =>
      if a = Interrupts.address then 2
      else if a = ReceiveInterruptStatus.address then 32
      else 0,
   fun _ => 0⟩

/-- A chip with the bus-error interrupt flag set (Interrupts bit 13). -/
def chipC8 : Chip :=
  ⟨fun a => if a = Interrupts.address then 2 ^ 13 else 0, fun _ => 0⟩

/-! ## Theorems -/

/-- Claim C1: the claim states that decoding the encoded header together with the
payload yields the original frame in identifier, DLC and payload bytes.  The
code violates this for extended identifiers: `Frame::from_rx_message`
computes `header.eid() << 11 + header.sid()`, which parses as
`eid << (11 + sid)`.  At the spec's own example identifier `0x1ABCDE`
(sid = 0x4DE, eid = 0x357) the masked shift amount is
`(11 + 0x4DE) % 32 = 9`, so the decoder reconstructs the extended identifier
`0x357 << 9 = 0x6AE00` instead of `0x1ABCDE`; DLC and payload bytes do
round-trip. -/
theorem C1_decode_encode_mangles_extended_id :
    Frame.from_rx_message
        (ReceiveMessageObjectHeader.from_bytes frameC1.as_components.1.into_bytes)
        frameC1.data
      = .ok { frameC1 with id := .extended 0x6AE00 }
    ∧ (0x6AE00 : Nat) ≠ 0x1ABCDE := by
  constructor
  · decide
  · decide

/-- Claim C2: the claim states that `Frame::new` returns the failure result for
slices longer than 64 bytes.  The code instead panics: it executes
`data[0..data_slice.len()].copy_from_slice(data_slice)` on the 64-byte
buffer before `best_fit` can return `None`.  At a 65-byte slice the call
panics, although `best_fit 65 = none` shows the intended failure path. -/
theorem C2_new_panics_past_64 :
    Frame.new (.standard 0) (List.replicate 65 0)
        = .panic "range end index out of range for slice of length 64"
    ∧ DataLengthCode.best_fit 65 = none := by
  constructor
  · decide
  · decide

/-- Claim C3 counterexample: the claim states the identifier-extension flag is set
for every extended identifier, including those whose high 18 bits are zero.
For the extended identifier `0x123` the encoder leaves the flag clear,
because the source sets it with `.with_ide(eid > 0)`. -/
theorem C3_counterexample :
    frameC3x.id = .extended 0x123 ∧ frameC3x.as_components.1.ide = false := by
  constructor
  · decide
  · decide

/-- Claim C3 (amended): `encode` splits the identifier into the low 11 bits
(standard component) and the high 18 bits (extended component), and sets
the identifier-extension flag iff the identifier is extended AND its high
18 bits are nonzero; for every standard identifier the flag is clear. -/
theorem C3_id_split_and_ide_flag (f : Frame) :
    (∀ raw, f.id = .standard raw →
       f.as_components.1.sid = raw ∧ f.as_components.1.eid = 0 ∧
       f.as_components.1.ide = false)
  ∧ (∀ raw, f.id = .extended raw →
       f.as_components.1.sid = raw % 2 ^ 11 ∧ f.as_components.1.eid = raw >>> 11 ∧
       (f.as_components.1.ide = true ↔ raw >>> 11 ≠ 0)) := by
  constructor
  · intro raw h
    simp [Frame.as_components, h]
  · intro raw h
    have hand : raw &&& 0x7FF = raw % 2 ^ 11 := by
      have : (0x7FF : Nat) = 2 ^ 11 - 1 := by norm_num
      rw [this, Nat.and_pow_two_sub_one_eq_mod]
    refine ⟨?_, ?_, ?_⟩
    · simp [Frame.as_components, h, hand]
    · simp [Frame.as_components, h]
    · simp [Frame.as_components, h, Nat.pos_iff_ne_zero]

/-- Claim C3 witness: the amended statement instantiated at the extended
identifier `0x1ABCDE`. -/
theorem C3_witness :
    frameC3w.as_components.1.sid = 0x1ABCDE % 2 ^ 11
    ∧ frameC3w.as_components.1.eid = 0x1ABCDE >>> 11
    ∧ (frameC3w.as_components.1.ide = true ↔ 0x1ABCDE >>> 11 ≠ 0) :=
  (C3_id_split_and_ide_flag frameC3w).2 0x1ABCDE rfl

/-- Claim C5 counterexample: the claim states the reset operation sends exactly
one byte.  `Instruction::header` always produces a two-byte command
(instruction nibble plus 12-bit address), and `reset` writes both bytes. -/
theorem C5_counterexample :
    (reset chipZero).trace = [Txn.rawWrite (Instruction.header .Reset 0x00)]
    ∧ (Instruction.header .Reset 0x00).length ≠ 1 := by
  constructor
  · rfl
  · decide

/-- Claim C5 (amended): for every chip state, reset issues exactly one SPI write
of exactly two bytes, both `0x00`; in particular the top nibble of the
first (command) byte is `0000`. -/
theorem C5_reset_sends_two_zero_bytes (c : Chip) :
    (reset c).trace = [Txn.rawWrite [0x00, 0x00]]
    ∧ (reset c).out = .ok ()
    ∧ (0x00 : Nat) >>> 4 = 0 := by
  refine ⟨?_, rfl, by decide⟩
  show [Txn.rawWrite (Instruction.header .Reset 0x00)] = [Txn.rawWrite [0x00, 0x00]]
  decide

/-- Claim C6 counterexample: the claim states the full-FIFO condition is returned
as a non-error result.  The code returns it as the error variant
`Err(Error::ControllerError("No room in TX FIFO!"))`. -/
theorem C6_counterexample :
    (transmit 1 frameC6 chipZero).out = .err "No room in TX FIFO!" := by
  decide

/-- Claim C6 (amended): for every FIFO index, transmit on a FIFO whose status
"not full" flag reads false returns the full condition immediately as the
typed, recoverable controller error `Err(ControllerError("No room in TX
FIFO!"))` - an error-typed result, not a non-error one - without blocking,
and issues no RAM write and no further register access in that call: the
entire SPI trace is the single status read, and the chip state is
unchanged. -/
theorem C6_full_fifo_errs_without_writing (c : Chip) (m : Nat) (f : Frame)
    (h : Nat.testBit (c.regs (FIFOStatus.address m)) 0 = false) :
    (transmit m f c).out = .err "No room in TX FIFO!"
    ∧ (transmit m f c).trace = [Txn.regRead (FIFOStatus.address m)]
    ∧ (transmit m f c).chip = c := by
  refine ⟨?_, ?_, ?_⟩ <;>
    simp [transmit, M.bind, read_register, M.fail, h]

/-- Claim C6 witness: the amended statement at a concrete chip whose FIFO 1
status register reads zero. -/
theorem C6_witness :
    (transmit 1 frameC6 chipZero).trace = [Txn.regRead (FIFOStatus.address 1)] :=
  (C6_full_fifo_errs_without_writing chipZero 1 frameC6 (by decide)).2.1

/-- Claim C9: the bit-timing resolver is a pure total function on the enumerated
triples: it returns a configuration exactly for the triples of the
supported set, and every returned configuration uses automatic transceiver
delay compensation (`tdcmod = 0b10`) except for the 500K and 833K
data-phase rates, where it is manual (`tdcmod = 0`) with the precomputed
offset. -/
theorem C9_resolver_supported_set_and_tdc (clock : Clock) (br : BitRate) :
    (BitRate.get_config br clock).isSome
        = supportedTriple clock br.arbitration br.data
    ∧ Option.all
        (fun cfg =>
          (decide (cfg.tdc_mode = 0)
              == (decide (br.data = .Rate500K) || decide (br.data = .Rate833K)))
          && (decide (cfg.tdc_mode = 0) || decide (cfg.tdc_mode = 0b10)))
        (BitRate.get_config br clock) = true := by
  revert clock br
  decide

/-- Helper: `ramWrites` distributes over trace concatenation. -/
theorem ramWrites_append (t1 t2 : List Txn) :
    ramWrites (t1 ++ t2) = ramWrites t1 ++ ramWrites t2 := by
  induction t1 with
  | nil => rfl
  | cons h t ih => cases h <;> simp [ramWrites, ih]

/-- Helper: decompose the RAM writes of a sequenced computation. -/
theorem ramWrites_bind (m : M α) (f : α → M β) (c : Chip) :
    ramWrites ((M.bind m f) c).trace
      = ramWrites (m c).trace ++
        (match (m c).out with
         | .ok a => ramWrites ((f a (m c).chip).trace)
         | .err _ => []
         | .panic _ => []) := by
  unfold M.bind
  cases h : (m c).out <;> simp [h, ramWrites_append]

/-- Helper: run a sequenced computation whose first step succeeded. -/
theorem bind_ok {α β : Type} (m : M α) (f : α → M β) (c : Chip) (a : α) (c2 : Chip)
    (t : List Txn) (h : m c = ⟨.ok a, c2, t⟩) :
    M.bind m f c = ⟨(f a c2).out, (f a c2).chip, t ++ (f a c2).trace⟩ := by
  simp only [M.bind, h]

/-- Helper: a burst write of aligned length always succeeds with a single
RAM-write transaction. -/
theorem write_bytes_run (address : Nat) (data : List Nat) (c : Chip)
    (h : data.length % 4 = 0) :
    write_bytes address data c
      = ⟨.ok (),
         { c with ram := fun a =>
             if address ≤ a ∧ a < address + data.length then data.getD (a - address) 0
             else c.ram a },
         [.ramWrite address data]⟩ := by
  unfold write_bytes
  rw [if_pos h]

/-- Helper: one unfolding step of the RAM-initialization loop (the 64-byte
burst length always passes the multiple-of-4 assertion). -/
theorem write_seq_cons (a : Nat) (rest : List Nat) (d : Nat) (c : Chip) :
    write_seq (a :: rest) d c
      = ⟨(write_seq rest d (write_bytes a (List.replicate 64 d) c).chip).out,
         (write_seq rest d (write_bytes a (List.replicate 64 d) c).chip).chip,
         Txn.ramWrite a (List.replicate 64 d)
           :: (write_seq rest d (write_bytes a (List.replicate 64 d) c).chip).trace⟩ := by
  have h4 : (List.replicate 64 d).length % 4 = 0 := by rw [List.length_replicate]
  have hwb := write_bytes_run a (List.replicate 64 d) c h4
  have hstep : write_seq (a :: rest) d c
      = M.bind (write_bytes a (List.replicate 64 d)) (fun _ => write_seq rest d) c := by
    simp only [write_seq]
  rw [hstep, bind_ok _ _ _ _ _ _ hwb, hwb]
  rfl

/-- Helper: the RAM-initialization loop always succeeds. -/
theorem write_seq_out (l : List Nat) (d : Nat) (c : Chip) :
    (write_seq l d c).out = .ok () := by
  induction l generalizing c with
  | nil => rfl
  | cons a rest ih => rw [write_seq_cons]; exact ih _

/-- Helper: the trace of the RAM-initialization loop is one 64-byte burst
write per address. -/
theorem write_seq_trace (l : List Nat) (d : Nat) (c : Chip) :
    (write_seq l d c).trace = l.map fun a => Txn.ramWrite a (List.replicate 64 d) := by
  induction l generalizing c with
  | nil => rfl
  | cons a rest ih => rw [write_seq_cons, List.map_cons, ← ih]

/-- Helper: `ramWrites` of a pure burst-write trace. -/
theorem ramWrites_map_write (l : List Nat) (d : Nat) :
    ramWrites (l.map fun a => Txn.ramWrite a (List.replicate 64 d))
      = l.map fun a => (a, List.replicate 64 d) := by
  induction l with
  | nil => rfl
  | cons a rest ih => simp only [List.map_cons, ramWrites, ih]

/-- Helper: the only RAM writes issued by `reset_and_apply_config` are the
32 bursts of `initialize_ram(0xFF)`, for every chip state and every
configuration (resolvable or not - the RAM pass precedes the resolver
lookup). -/
theorem reset_and_apply_config_ramWrites (cfg : Config) (c : Chip) :
    ramWrites ((reset_and_apply_config cfg c).trace)
      = ((List.range 32).map fun k => k * 64).map
          fun a => (a, List.replicate 64 0xFF) := by
  cases hg : BitRate.get_config cfg.bit_rate cfg.clock <;>
    simp only [reset_and_apply_config, ramWrites_bind, hg, reset, read_register,
      write_register, initialize_ram, write_seq_out, write_seq_trace,
      ramWrites_map_write, ramWrites, M.fail, M.panic,
      List.append_nil, List.nil_append] <;>
    rfl

/-- Claim C4 counterexample: the claim states every byte written to RAM during
initialization has value 0; the code calls `initialize_ram(0xFF)`, so the
trace contains RAM writes of nonzero bytes. -/
theorem C4_counterexample :
    ∃ w ∈ ramWrites ((reset_and_apply_config Config.default chipZero).trace),
      ∃ b ∈ w.2, b ≠ 0 := by
  rw [reset_and_apply_config_ramWrites]
  refine ⟨(0, List.replicate 64 0xFF), ?_, 0xFF, ?_, by decide⟩
  · exact List.mem_map.2 ⟨0, List.mem_map.2 ⟨0, List.mem_range.2 (by decide), rfl⟩, rfl⟩
  · exact List.mem_replicate.2 ⟨by decide, rfl⟩

/-- Claim C4 (amended): `reset_and_apply_config` fills the entire 2048-byte RAM
region with the byte `0xFF` (not 0): every byte it writes to RAM has value
`0xFF`, and the writes cover all offsets `0..2048`. -/
theorem C4_ram_fill_ff_covers_region (c : Chip) (cfg : Config) :
    (∀ w ∈ ramWrites ((reset_and_apply_config cfg c).trace), ∀ b ∈ w.2, b = 0xFF)
  ∧ (∀ off, off < RAM_SIZE →
       ∃ w ∈ ramWrites ((reset_and_apply_config cfg c).trace),
         w.1 ≤ off ∧ off < w.1 + w.2.length) := by
  rw [reset_and_apply_config_ramWrites]
  constructor
  · intro w hw b hb
    obtain ⟨a, _, rfl⟩ := List.mem_map.1 hw
    exact List.eq_of_mem_replicate hb
  · intro off hoff
    have hoff2 : off < 2048 := hoff
    refine ⟨(off / 64 * 64, List.replicate 64 0xFF), ?_, ?_, ?_⟩
    · exact List.mem_map.2
        ⟨off / 64 * 64, List.mem_map.2 ⟨off / 64, List.mem_range.2 (by omega), rfl⟩, rfl⟩
    · omega
    · rw [List.length_replicate]
      omega

/-- Claim C4 witness: at the default configuration and a zeroed chip, every RAM
offset up to 2047 is covered by some write of the trace. -/
theorem C4_witness :
    ∃ w ∈ ramWrites ((reset_and_apply_config Config.default chipZero).trace),
      w.1 ≤ 2047 ∧ 2047 < w.1 + w.2.length :=
  (C4_ram_fill_ff_covers_region chipZero Config.default).2 2047 (by decide)

/-- Helper: the outcome of a sequenced computation, by cases on the first
step. -/
theorem bind_out {α β : Type} (m : M α) (f : α → M β) (c : Chip) :
    (M.bind m f c).out
      = match (m c).out with
        | .ok a => (f a (m c).chip).out
        | .err e => .err e
        | .panic p => .panic p := by
  unfold M.bind
  cases h : (m c).out <;> simp [h]

/-- Helper: a burst read of aligned length always succeeds, returning the
RAM bytes. -/
theorem read_bytes_run (address len : Nat) (c : Chip) (h : len % 4 = 0) :
    read_bytes address len c
      = ⟨.ok ((List.range len).map fun i => c.ram (address + i) % 256), c,
         [.ramRead address len]⟩ := by
  unfold read_bytes
  rw [if_pos h]

/-- Helper: the scan loop is inert once a frame has been taken. -/
theorem receive_loop_some (r : Option Nat) (rx : Nat) (l : List Nat)
    (x : Nat × Frame) (c : Chip) :
    receive_loop r rx l (some x) c = ⟨.ok (some x), c, []⟩ := by
  induction l generalizing c with
  | nil => rfl
  | cons i rest ih =>
      simp only [receive_loop]
      rw [if_neg (by simp)]
      exact ih c

/-- Helper: scan steps whose interrupt bit is clear read nothing and leave
the accumulator empty. -/
theorem receive_loop_skip (rx : Nat) (l1 l2 : List Nat) (c : Chip)
    (h : ∀ j ∈ l1, Nat.testBit rx j = false) :
    receive_loop none rx (l1 ++ l2) none c = receive_loop none rx l2 none c := by
  induction l1 generalizing c with
  | nil => rfl
  | cons i rest ih =>
      have hi := h i (List.mem_cons_self i rest)
      simp only [List.cons_append, receive_loop]
      rw [if_pos ⟨rfl, rfl⟩]
      unfold receive_first_fifo
      rw [if_neg (by simp [hi])]
      rw [bind_ok _ _ _ _ _ _ (rfl : M.pure none c = ⟨.ok none, c, []⟩)]
      simp only [List.nil_append]
      exact ih c fun j hj => h j (List.mem_cons_of_mem i hj)

/-- Helper: with all-zero RAM, reading any FIFO succeeds and decodes the
zero frame (zero header: eid = 0, sid = 0, DLC_0), with the five
transactions of `get_rx_frame` and only the uinc register write. -/
theorem get_rx_frame_zero_ram (m : Nat) (regs : Nat → Nat) :
    get_rx_frame m ⟨regs, fun _ => 0⟩
      = ⟨.ok (some (m, zeroFrame)),
         ⟨fun a => if a = FIFOControl.address m
             then setBitB (regs (FIFOControl.address m)) 8 true % 2 ^ 32
             else regs a,
          fun _ => 0⟩,
         [.regRead (FIFOUserAddress.address m),
          .ramRead (regs (FIFOUserAddress.address m) % 2 ^ 16) 8,
          .ramRead (regs (FIFOUserAddress.address m) % 2 ^ 16 + 8) 64,
          .regRead (FIFOControl.address m),
          .regWrite (FIFOControl.address m)
            (setBitB (regs (FIFOControl.address m)) 8 true % 2 ^ 32)]⟩ := by
  have hfr : Frame.from_rx_message
      (ReceiveMessageObjectHeader.from_bytes (List.replicate 8 0)) (List.replicate 64 0)
      = .ok zeroFrame := by decide
  simp [get_rx_frame, M.bind, read_register, read_bytes, write_register, M.pure,
    Nat.zero_mod, List.map_const', List.length_range, hfr, -List.reduceReplicate]

/-- Claim C7: when the bus-error flag is clear and the aggregate receive flag is
set, `receive` (with no FIFO restriction) scans indices 1..31 in ascending
order and consumes exactly the first index whose per-FIFO interrupt bit is
set: if bit `i0` is set and all bits 1..i0-1 are clear, the returned FIFO
index is `i0`, independent of the bits above it.  (All-zero RAM makes the
decoded frame concrete; the scan logic does not depend on it.) -/
theorem C7_receive_consumes_first_set_fifo (regs : Nat → Nat) (i0 : Nat)
    (hcerr : Nat.testBit (regs Interrupts.address) 13 = false)
    (hrx : Nat.testBit (regs Interrupts.address) 1 = true)
    (h1 : 1 ≤ i0) (h31 : i0 ≤ 31)
    (hset : Nat.testBit (regs ReceiveInterruptStatus.address) i0 = true)
    (hlow : ∀ j, 1 ≤ j → j < i0 →
      Nat.testBit (regs ReceiveInterruptStatus.address) j = false) :
    (receive none ⟨regs, fun _ => 0⟩).out = .ok (some (i0, zeroFrame)) := by
  have hsplit : List.range' 1 31
      = List.range' 1 (i0 - 1) ++ i0 :: List.range' (i0 + 1) (31 - i0) := by
    have h1' := List.range'_append 1 (i0 - 1) (32 - i0) 1
    rw [show 1 + 1 * (i0 - 1) = i0 by omega] at h1'
    rw [show 32 - i0 + (i0 - 1) = 31 by omega] at h1'
    rw [← h1', show 32 - i0 = 31 - i0 + 1 by omega, List.range'_succ]
  unfold receive
  rw [bind_out]
  simp only [read_register, hcerr, hrx]
  rw [if_neg (by decide), if_pos (by decide)]
  rw [bind_out]
  simp only [read_register]
  rw [hsplit,
    receive_loop_skip _ _ _ _ (fun j hj => hlow j (List.mem_range'_1.1 hj).1
      (by have := (List.mem_range'_1.1 hj).2; omega))]
  simp only [receive_loop]
  rw [if_pos ⟨rfl, rfl⟩]
  unfold receive_first_fifo
  rw [if_pos ⟨h1, h31, hset⟩]
  rw [bind_out, get_rx_frame_zero_ram i0 regs]
  simp only [receive_loop_some]

/-- Claim C7 witness: a chip with the receive flag set and only bit 5 of the
interrupt bitmap set resolves FIFO index 5. -/
theorem C7_witness : (receive none chipC7).out = .ok (some (5, zeroFrame)) :=
  C7_receive_consumes_first_set_fifo chipC7.regs 5 (by decide) (by decide)
    (by decide) (by decide) (by decide)
    (by intro j hj1 hj2; interval_cases j <;> decide)

/-- Helper: the frame decoder never produces the `Err` variant (it returns
a frame or panics on an `unwrap`). -/
theorem from_rx_message_no_err (hd : ReceiveMessageObjectHeader) (d : List Nat)
    (e : String) : Frame.from_rx_message hd d ≠ .err e := by
  simp only [Frame.from_rx_message]
  split <;> simp

/-- Helper: reading one FIFO never produces the `Err` variant. -/
theorem get_rx_frame_no_err (m : Nat) (c : Chip) (e : String) :
    (get_rx_frame m c).out ≠ .err e := by
  unfold get_rx_frame
  rw [bind_out]
  simp only [read_register]
  rw [bind_out, read_bytes_run _ _ _ (by decide)]
  simp only []
  rw [bind_out, read_bytes_run _ _ _ (by decide)]
  simp only []
  cases hfr : Frame.from_rx_message
      (ReceiveMessageObjectHeader.from_bytes
        (List.map (fun i => c.ram (c.regs (FIFOUserAddress.address m) % 2 ^ 16 + i) % 256)
          (List.range 8)))
      (List.map (fun i => c.ram (c.regs (FIFOUserAddress.address m) % 2 ^ 16 + 8 + i) % 256)
        (List.range 64)) with
  | ok frame => simp [M.bind, read_register, write_register, M.pure]
  | err e2 => exact absurd hfr (from_rx_message_no_err _ _ e2)
  | panic p => simp [M.panic]

/-- Helper: one scan step never produces the `Err` variant. -/
theorem receive_first_fifo_no_err (i rx : Nat) (c : Chip) (e : String) :
    (receive_first_fifo i rx c).out ≠ .err e := by
  unfold receive_first_fifo
  split
  · exact get_rx_frame_no_err _ _ _
  · simp [M.pure]

/-- Helper: the whole scan loop never produces the `Err` variant. -/
theorem receive_loop_no_err (r : Option Nat) (rx : Nat) (l : List Nat)
    (acc : Option (Nat × Frame)) (c : Chip) (e : String) :
    (receive_loop r rx l acc c).out ≠ .err e := by
  induction l generalizing acc c with
  | nil => simp [receive_loop, M.pure]
  | cons i rest ih =>
      simp only [receive_loop]
      split
      · rw [bind_out]
        cases hout : (receive_first_fifo i rx c).out with
        | ok a => exact ih _ _
        | err e2 => exact absurd hout (receive_first_fifo_no_err i rx c e2)
        | panic p => simp
      · exact ih _ _

/-- Helper: when the bus-error flag is clear, `receive` cannot return the
bus-error result (its outcome is a frame, nothing-pending, or a decode
panic - never `Err`). -/
theorem receive_no_err_cerr_clear (c : Chip) (r : Option Nat) (e : String)
    (h : Nat.testBit (c.regs Interrupts.address) 13 = false) :
    (receive r c).out ≠ .err e := by
  unfold receive
  rw [bind_out]
  simp only [read_register, h]
  cases hb : Nat.testBit (c.regs Interrupts.address) 1 with
  | false =>
      rw [if_neg (by decide), if_neg (by decide)]
      simp [M.pure]
  | true =>
      rw [if_neg (by decide), if_pos (by decide)]
      rw [bind_out]
      simp only [read_register]
      exact receive_loop_no_err _ _ _ _ _ _

/-- Helper: clearing bit 13 through the setter leaves bit 13 clear after
the 32-bit truncation of a register write. -/
theorem testBit13_setBitB_false (v : Nat) :
    Nat.testBit (setBitB v 13 false % 2 ^ 32) 13 = false := by
  rw [Nat.testBit_mod_two_pow]
  simp only [setBitB, setBits, Nat.shiftRight_eq_div_pow, if_neg]
  rw [Nat.testBit_to_div_mod]
  norm_num
  omega

/-- Helper: the bus-error path of `receive` fully computed: the error
result, the written-back interrupt register, and the two transactions. -/
theorem receive_bus_error_run (c : Chip)
    (h : Nat.testBit (c.regs Interrupts.address) 13 = true) :
    receive none c
      = ⟨.err "CAN Bus error!",
         { c with regs := fun a =>
             if a = Interrupts.address
             then setBitB (c.regs Interrupts.address) 13 false % 2 ^ 32
             else c.regs a },
         [.regRead Interrupts.address,
          .regWrite Interrupts.address
            (setBitB (c.regs Interrupts.address) 13 false % 2 ^ 32)]⟩ := by
  unfold receive
  rw [bind_ok _ _ _ _ _ _ (rfl :
    read_register Interrupts.address c
      = ⟨.ok (c.regs Interrupts.address), c, [.regRead Interrupts.address]⟩)]
  rw [if_pos h]
  rw [bind_ok _ _ _ _ _ _ (rfl :
    write_register Interrupts.address (setBitB (c.regs Interrupts.address) 13 false) c
      = ⟨.ok (),
         { c with regs := fun a =>
             if a = Interrupts.address
             then setBitB (c.regs Interrupts.address) 13 false % 2 ^ 32
             else c.regs a },
         [.regWrite Interrupts.address
           (setBitB (c.regs Interrupts.address) 13 false % 2 ^ 32)]⟩)]
  rfl

/-- Claim C8: when `receive` observes the bus-error interrupt flag set, the same
call writes the interrupt register back with the flag cleared before
returning the bus-error result, and an immediately following call on the
resulting state cannot re-report a bus error. -/
theorem C8_bus_error_cleared_same_call (c : Chip)
    (h : Nat.testBit (c.regs Interrupts.address) 13 = true) :
    (receive none c).out = .err "CAN Bus error!"
    ∧ (receive none c).trace
        = [.regRead Interrupts.address,
           .regWrite Interrupts.address
             (setBitB (c.regs Interrupts.address) 13 false % 2 ^ 32)]
    ∧ Nat.testBit ((receive none c).chip.regs Interrupts.address) 13 = false
    ∧ ∀ e, (receive none ((receive none c).chip)).out ≠ .err e := by
  rw [receive_bus_error_run c h]
  refine ⟨rfl, rfl, ?_, ?_⟩
  · simp only [if_pos rfl]
    exact testBit13_setBitB_false _
  · intro e
    apply receive_no_err_cerr_clear
    simp only [if_pos rfl]
    exact testBit13_setBitB_false _

/-- Claim C8 witness: the statement at a chip whose interrupt register has
exactly the bus-error flag set. -/
theorem C8_witness :
    (receive none chipC8).out = .err "CAN Bus error!"
    ∧ Nat.testBit ((receive none chipC8).chip.regs Interrupts.address) 13 = false :=
  ⟨(C8_bus_error_cleared_same_call chipC8 (by decide)).1,
   (C8_bus_error_cleared_same_call chipC8 (by decide)).2.2.1⟩

/-- Claim C10: the claim states transmit always hands `write_bytes` a payload
length satisfying its multiple-of-4 assertion.  It does pass exactly
`bytes(DLC)` bytes, but for `DLC_3` that length is 3, so the assertion
`data.len() % 4 == 0` in `write_bytes` fires: transmitting a 3-byte frame
on a non-full FIFO panics after the header write. -/
theorem C10_transmit_panics_on_3_byte_frame :
    (transmit 1 frameC10 chipTxReady).out = .panic "Must write in multiples of 4 data bytes"
    ∧ frameC10.payload.length = DataLengthCode.bytes .DLC_3
    ∧ DataLengthCode.bytes .DLC_3 % 4 ≠ 0 := by
  refine ⟨by decide, by decide, by decide⟩

end MCP
